import Mathlib

/-!
# ProductForm.jsx: cart-submit handler and option selector view

A shallow embedding of `src/app/components/ProductForm.jsx`:

* `action` (lines 7-47), the form-submission handler, as a function of the
  submitted form data and of the external `storefront.mutate` collaborator,
  returning the list of mutation calls it made together with its result;
* `ProductForm` (lines 78-202) and `ProductOptionSwatch` (lines 210-227), as
  functions building the JSX element tree they return.

JavaScript values are embedded by the types the code can receive: a form field
is a string or `null`, a GraphQL response field is `undefined`, `null` or a
value, and the numbers produced by `parseInt` are the integral doubles, the
infinities, `-0` and `NaN`.
-/

namespace ProductFormJsx

/-! ## JavaScript values -/

/-- A JavaScript slot that may be missing (`undefined`), `null`, or hold a value. -/
inductive JsOpt (α : Type) where
  | undefined
  | null
  | value (a : α)
  deriving DecidableEq, Repr

/-- Optional chaining `x?.f`: `undefined` when `x` is nullish, else the field. -/
def JsOpt.chain {α β : Type} (x : JsOpt α) (f : α → JsOpt β) : JsOpt β :=
  match x with
  | .value a => f a
  | _ => .undefined

/-- JavaScript truthiness of a string: every string but the empty one. -/
def truthyString (s : String) : Bool :=
  s.data != []

/-- JavaScript truthiness of a possibly nullish string. -/
def JsOpt.truthy : JsOpt String → Bool
  | .value s => truthyString s
  | _ => false

/-- The operator `a || b` on possibly nullish strings. -/
def JsOpt.or (a b : JsOpt String) : JsOpt String :=
  if a.truthy then a else b

/-- The operation `String(v)` on a possibly nullish string. -/
def JsOpt.toJsString : JsOpt String → String
  | .undefined => "undefined"
  | .null => "null"
  | .value s => s

/-- The Number values `parseInt` can produce: `NaN`, the infinities, `-0`, and
the integers that are exactly representable as a double. -/
inductive JSNumber where
  | nan
  | posInfinity
  | negInfinity
  | negZero
  | int (z : Int)
  deriving DecidableEq, Repr

/-- The test `Number.isInteger`. -/
def JSNumber.isInteger : JSNumber → Bool
  | .negZero => true
  | .int _ => true
  | _ => false

/-! ## parseInt (ECMA-262, 19.2.5) -/

/-- The code points of `StrWhiteSpaceChar`: WhiteSpace and LineTerminator. -/
def isStrWhiteSpaceChar (c : Char) : Bool :=
  c.toNat ∈ [0x9, 0xA, 0xB, 0xC, 0xD, 0x20, 0xA0, 0x1680, 0x2028, 0x2029,
    0x202F, 0x205F, 0x3000, 0xFEFF] || (0x2000 ≤ c.toNat && c.toNat ≤ 0x200A)

/-- The value of a digit or letter as a radix digit (`a`/`A` is 10, ... `z`/`Z` is 35). -/
def digitValue (c : Char) : Option Nat :=
  if 48 ≤ c.toNat ∧ c.toNat ≤ 57 then some (c.toNat - 48)
  else if 97 ≤ c.toNat ∧ c.toNat ≤ 122 then some (c.toNat - 97 + 10)
  else if 65 ≤ c.toNat ∧ c.toNat ≤ 90 then some (c.toNat - 65 + 10)
  else none

/-- The value of `c` as a digit of radix `R`, when it is one. -/
def radixDigit (R : Nat) (c : Char) : Option Nat :=
  match digitValue c with
  | some d => if d < R then some d else none
  | none => none

/-- The double nearest to the natural number `n` (ties to even), `none` when it
is out of the finite range. Every `n < 2^53` is its own double. (ECMA-262
lets an implementation replace the digits after the 20th by zeros; the exact
rounding is what V8 does.) -/
def roundToDouble (n : Nat) : Option Nat :=
  if n < 2 ^ 53 then some n
  else
    let k := Nat.log2 n - 52
    let q := n / 2 ^ k
    let r := n % 2 ^ k
    let half := 2 ^ (k - 1)
    let q1 := if half < r ∨ (r = half ∧ q % 2 = 1) then q + 1 else q
    let v := q1 * 2 ^ k
    if v < 2 ^ 1024 then some v else none

/-- The function `parseInt(string)` with no radix argument. The steps follow
ECMA-262: trim leading white space, read a sign, read a `0x`/`0X` marker
(radix 16, else radix 10), keep the longest run of radix digits, and return
`NaN` when that run is empty; the integer read is converted to a Number. -/
def parseInt (string : String) : JSNumber :=
  let S := string.data.dropWhile isStrWhiteSpaceChar
  let negative : Bool := S.head? = some '-'
  let S := if S.head? = some '+' ∨ S.head? = some '-' then S.tail else S
  let hex : Bool := S.take 2 = ['0', 'x'] ∨ S.take 2 = ['0', 'X']
  let R := if hex then 16 else 10
  let S := if hex then S.drop 2 else S
  let Z := S.takeWhile (fun c => (radixDigit R c).isSome)
  if Z.isEmpty then .nan
  else
    let mathInt := Z.foldl (fun acc c => acc * R + (radixDigit R c).getD 0) 0
    if mathInt = 0 then (if negative then .negZero else .int 0)
    else
      match roundToDouble mathInt with
      | some v => .int (if negative then -(v : Int) else (v : Int))
      | none => if negative then .negInfinity else .posInfinity

/-! ## The cart-submit handler (lines 7-70) -/

/-- The body of a form submission: its fields in order (a name may occur
several times). The fields are strings, as the form of this page posts them;
file entries are not modelled. -/
structure FormData where
  entries : List (String × String)
  deriving DecidableEq, Repr

/-- The method `formData.get(name)`: the value of the first field of that
name, `none` (JavaScript `null`) when there is none. -/
def FormData.get (formData : FormData) (name : String) : Option String :=
  match formData.entries.find? (fun e => e.1 == name) with
  | some e => some e.2
  | none => none

/-- JavaScript truthiness of the result of `formData.get`. -/
def truthyField : Option String → Bool
  | some s => truthyString s
  | none => false

/-- The value of `formData.get('quantity') || 1`: a string or a number. -/
inductive StringOrNumber where
  | string (s : String)
  | number (n : Nat)
  deriving DecidableEq, Repr

/-- The conversion `ToString` that `parseInt` applies to its argument. -/
def StringOrNumber.toJsString : StringOrNumber → String
  | .string s => s
  | .number n => toString n

/-- The two GraphQL documents of lines 50-70. -/
inductive Mutation where
  | CREATE_CART_MUTATION
  | ADD_LINES_MUTATION
  deriving DecidableEq, Repr

/-- One cart line `{merchandiseId, quantity}`; `merchandiseId` is `none` when
the form has no `variantId` field. -/
structure CartLineInput where
  merchandiseId : Option String
  quantity : JSNumber
  deriving DecidableEq, Repr

/-- The object `{lines: [...]}` sent as `input` of the create-cart mutation. -/
structure CartInput where
  lines : List CartLineInput
  deriving DecidableEq, Repr

/-- The `variables` object of a mutation call: `{cartId, lines}` for the
add-lines document, `{input}` for the create-cart document. -/
inductive Variables where
  | cartIdLines (cartId : Option String) (lines : List CartLineInput)
  | input (input : CartInput)
  deriving DecidableEq, Repr

/-- One call `storefront.mutate(mutation, {variables})`; `vars` is the
`variables` object. -/
structure MutationCall where
  mutation : Mutation
  vars : Variables
  deriving DecidableEq, Repr

/-- The selection `cart { id checkoutUrl }` of both mutations. -/
structure Cart where
  id : JsOpt String
  checkoutUrl : JsOpt String
  deriving DecidableEq, Repr

/-- The payload object under `cartCreate` or `cartLinesAdd`. -/
structure CartPayload where
  cart : JsOpt Cart
  deriving DecidableEq, Repr

/-- The object `storefront.mutate` resolves to: the fields the two documents
can select, each possibly missing or `null`. -/
structure MutationResponse where
  cartCreate : JsOpt CartPayload
  cartLinesAdd : JsOpt CartPayload
  deriving DecidableEq, Repr

/-- A fault that leaves a function by `throw` (or a rejected promise). -/
inductive Fault where
  | rejected (reason : String)
  | typeError (message : String)
  deriving DecidableEq, Repr

/-- The response built by `redirect(url)`: status 302 and a `Location` header. -/
structure Redirect where
  status : Nat
  location : String
  deriving DecidableEq, Repr

/-- The HTTP whitespace of the Fetch standard: tab, line feed, carriage
return and space. -/
def isHttpWhitespace (c : Char) : Bool :=
  c.toNat = 0x09 || c.toNat = 0x0A || c.toNat = 0x0D || c.toNat = 0x20

/-- The normalisation of a header value: leading and trailing HTTP whitespace
is stripped. -/
def normalizeHeaderValue (value : List Char) : List Char :=
  ((value.dropWhile isHttpWhitespace).reverse.dropWhile isHttpWhitespace).reverse

/-- The value `headers.set(name, value)` stores (Fetch standard): the argument
is converted to a byte string, a `TypeError` when a character is above U+00FF;
it is normalised; and a value holding NUL, line feed or carriage return is
refused with a `TypeError`. -/
def headersSet (value : String) : Except Fault String :=
  if value.data.any (fun c => 0xFF < c.toNat) then
    .error (.typeError "Headers.set: the value is not a byte string")
  else
    let normalized := normalizeHeaderValue value.data
    if normalized.any (fun c => c.toNat = 0x00 || c.toNat = 0x0A || c.toNat = 0x0D) then
      .error (.typeError "Headers.set: invalid header value")
    else .ok (String.mk normalized)

/-- The helper `redirect` of `@remix-run/node`: it stores the URL with
`headers.set("Location", url)` and builds a response of status 302; the fault
of `headers.set` leaves it. -/
def redirect (url : JsOpt String) : Except Fault Redirect :=
  match headersSet url.toJsString with
  | .ok location => .ok { status := 302, location := location }
  | .error fault => .error fault

/-- What one run of `action` did: the mutation calls made, in order, and the
value returned (`none` is JavaScript `null`) or the fault thrown. -/
structure ActionOutcome where
  calls : List MutationCall
  result : Except Fault (Option Redirect)

/-- The expression `cart.cartCreate?.cart?.checkoutUrl`. -/
def createCheckoutUrl (cart : MutationResponse) : JsOpt String :=
  (cart.cartCreate.chain (fun p => p.cart)).chain (fun c => c.checkoutUrl)

/-- The expression `cart.cartLinesAdd?.cart?.checkoutUrl`. -/
def addCheckoutUrl (cart : MutationResponse) : JsOpt String :=
  (cart.cartLinesAdd.chain (fun p => p.cart)).chain (fun c => c.checkoutUrl)

/-- The argument of the one `storefront.mutate` call of lines 12-37: the
form fields are read, the quantity defaults to the number 1, and the document
is chosen by the truthiness of `cartId`. -/
def mutationCall (formData : FormData) : MutationCall :=
  let variantId := formData.get "variantId"
  let quantity : StringOrNumber :=
    match formData.get "quantity" with
    | some s => if truthyString s then .string s else .number 1
    | none => .number 1
  let cartId := formData.get "cartId"
  if truthyField cartId then
    { mutation := .ADD_LINES_MUTATION
      vars := .cartIdLines cartId
        [{ merchandiseId := variantId, quantity := parseInt quantity.toJsString }] }
  else
    { mutation := .CREATE_CART_MUTATION
      vars := .input
        { lines := [{ merchandiseId := variantId, quantity := parseInt quantity.toJsString }] } }

/-- The handler `action` (lines 7-47). `mutate` is `storefront.mutate`; a
rejected call, or a fault of `redirect`, leaves the handler as a fault. The
two `console.log` lines only read values already computed and are left out. -/
def action (mutate : MutationCall → Except Fault MutationResponse)
    (formData : FormData) : ActionOutcome :=
  let call := mutationCall formData
  match mutate call with
  | .error fault => { calls := [call], result := .error fault }
  | .ok cart =>
    if ((createCheckoutUrl cart).or (addCheckoutUrl cart)).truthy then
      match redirect ((createCheckoutUrl cart).or (addCheckoutUrl cart)) with
      | .ok response => { calls := [call], result := .ok (some response) }
      | .error fault => { calls := [call], result := .error fault }
    else
      { calls := [call], result := .ok none }

/-- The `lines` array a mutation call carries, under `variables.lines` or
`variables.input.lines`. -/
def MutationCall.lines (call : MutationCall) : List CartLineInput :=
  match call.vars with
  | .cartIdLines _ lines => lines
  | .input input => input.lines

/-- The response field holds a cart whose `checkoutUrl` is the non-empty
string `url`. -/
def HasCheckoutUrl (payload : JsOpt CartPayload) (url : String) : Prop :=
  ∃ p c, payload = .value p ∧ p.cart = .value c ∧ c.checkoutUrl = .value url ∧ url ≠ ""

/-- The natural number a list of decimal digits denotes. -/
def decimalValue (digits : List Char) : Nat :=
  digits.foldl (fun n c => n * 10 + (c.toNat - 48)) 0

/-- The string reads as a decimal integer: optional leading white space, an
optional sign (`negative` tells a minus), the non-empty run `digits` of
decimal digits, and then nothing or text that does not start with a digit
(nor, after a lone `0`, with `x` or `X`, which would start a hexadecimal
number). -/
def ReadsAsInteger (s : String) (negative : Bool) (digits : List Char) : Prop :=
  ∃ ws sign rest, s.data = ws ++ (sign ++ (digits ++ rest)) ∧
    (∀ c ∈ ws, isStrWhiteSpaceChar c = true) ∧
    ((sign = [] ∧ negative = false) ∨ (sign = ['+'] ∧ negative = false) ∨
      (sign = ['-'] ∧ negative = true)) ∧
    digits ≠ [] ∧
    (∀ c ∈ digits, c.isDigit = true) ∧
    (∀ c, rest.head? = some c → c.isDigit = false) ∧
    ¬ (digits = ['0'] ∧ (rest.head? = some 'x' ∨ rest.head? = some 'X'))

/-- The string has no number to read: after optional leading white space and
an optional sign comes nothing, or a character that is not a decimal digit. -/
def ReadsNoNumber (s : String) : Prop :=
  ∃ ws sign rest, s.data = ws ++ (sign ++ rest) ∧
    (∀ c ∈ ws, isStrWhiteSpaceChar c = true) ∧
    (sign = [] ∨ sign = ['+'] ∨ sign = ['-']) ∧
    (∀ c, rest.head? = some c → c.isDigit = false) ∧
    (sign = [] → ∀ c, rest.head? = some c →
      isStrWhiteSpaceChar c = false ∧ c ≠ '+' ∧ c ≠ '-')

/-- The Number of an integer read with a sign: `-0` for a negative zero. -/
def signedInteger (negative : Bool) (n : Nat) : JSNumber :=
  if negative then (if n = 0 then .negZero else .int (-(n : Int))) else .int (n : Int)

/-- The string `url` is the first non-empty checkout URL of the response:
the one under `cartCreate`, or, when there is none there, the one under
`cartLinesAdd`. -/
def FirstCheckoutUrl (cart : MutationResponse) (url : String) : Prop :=
  HasCheckoutUrl cart.cartCreate url ∨
    ((¬ ∃ u, HasCheckoutUrl cart.cartCreate u) ∧ HasCheckoutUrl cart.cartLinesAdd url)

/-- The string `url` is `core` between leading and trailing HTTP whitespace;
`core` itself neither starts nor ends with HTTP whitespace. -/
def StripsTo (url : String) (core : List Char) : Prop :=
  ∃ leading trailing, url.data = leading ++ (core ++ trailing) ∧
    (∀ c ∈ leading, isHttpWhitespace c = true) ∧
    (∀ c ∈ trailing, isHttpWhitespace c = true) ∧
    (∀ c, core.head? = some c → isHttpWhitespace c = false) ∧
    (∀ c, core.getLast? = some c → isHttpWhitespace c = false)

/-- The string can be stored as a header value unchanged: no character above
U+00FF, no NUL, line feed or carriage return, and neither a leading nor a
trailing tab or space. -/
def IsHeaderValue (url : String) : Prop :=
  (∀ c ∈ url.data, c.toNat ≤ 0xFF ∧ c.toNat ≠ 0x00 ∧ c.toNat ≠ 0x0A ∧ c.toNat ≠ 0x0D) ∧
  (∀ c, url.data.head? = some c → isHttpWhitespace c = false) ∧
  (∀ c, url.data.getLast? = some c → isHttpWhitespace c = false)

/-- The response field holds no checkout URL: the field object, its cart or
its `checkoutUrl` is missing, `null`, or (for the URL) the empty string. -/
def Unpopulated (payload : JsOpt CartPayload) : Prop :=
  payload = .undefined ∨ payload = .null ∨
    ∃ p, payload = .value p ∧
      (p.cart = .undefined ∨ p.cart = .null ∨
        ∃ c, p.cart = .value c ∧
          (c.checkoutUrl = .undefined ∨ c.checkoutUrl = .null ∨ c.checkoutUrl = .value ""))

/-! ## The option selector view (lines 78-227) -/

/-- What an event handler of the view does when it runs. -/
inductive Effect where
  | consoleLog (message : String)
  | openAside (mode : String)
  | navigate (target : String) (replace : Bool) (preventScrollReset : Bool)
  deriving DecidableEq, Repr

/-- The selected variant, as far as the view reads it. -/
structure Variant where
  id : String
  availableForSale : Bool
  deriving DecidableEq, Repr

/-- One element of the `lines` prop of `AddToCartButton`. -/
structure CartLine where
  merchandiseId : String
  quantity : Nat
  selectedVariant : Variant
  deriving DecidableEq, Repr

/-- A value of a `style` object: a string or a number. -/
inductive StyleValue where
  | str (s : String)
  | num (q : Rat)
  deriving DecidableEq

/-- The value of a JSX prop. -/
inductive PropValue where
  | str (s : String)
  | bool (b : Bool)
  | num (n : Nat)
  | style (entries : List (String × StyleValue))
  | handler (effects : List Effect)
  | lines (lines : List CartLine)
  deriving DecidableEq

/-- A React node: text, `null`, a boolean, an array of nodes, or an element
with its type, key, props and children. -/
inductive Node where
  | text (s : String)
  | null
  | bool (b : Bool)
  | array (items : List Node)
  | element (type : String) (key : Option String)
      (props : List (String × PropValue)) (children : List Node)

/-- The type of an element node. -/
def Node.type? : Node → Option String
  | .element type _ _ _ => some type
  | _ => none

/-- The key of an element node. -/
def Node.key? : Node → Option String
  | .element _ key _ _ => key
  | _ => none

/-- The children of an element node. -/
def Node.children : Node → List Node
  | .element _ _ _ children => children
  | _ => []

/-- The value of a prop of an element node. -/
def Node.prop (n : Node) (name : String) : Option PropValue :=
  match n with
  | .element _ _ props _ =>
    match props.find? (fun e => e.1 == name) with
    | some e => some e.2
    | none => none
  | _ => none

/-- Whether the node is one React renders as nothing: `null` or a boolean. -/
def Node.rendersNothing : Node → Bool
  | .null => true
  | .bool _ => true
  | _ => false

/-- The field `url` of a preview image. -/
structure Image where
  url : JsOpt String
  deriving DecidableEq, Repr

/-- The field `previewImage` of a swatch image. -/
structure MediaImage where
  previewImage : JsOpt Image
  deriving DecidableEq, Repr

/-- The type `ProductOptionValueSwatch`: a color and an image, each optional. -/
structure ProductOptionValueSwatch where
  color : JsOpt String
  image : JsOpt MediaImage
  deriving DecidableEq, Repr

/-- One value of a product option (an element of `optionValues`). -/
structure OptionValue where
  name : String
  handle : String
  variantUriQuery : String
  selected : Bool
  available : Bool
  «exists» : Bool
  isDifferentProduct : Bool
  swatch : JsOpt ProductOptionValueSwatch
  deriving DecidableEq, Repr

/-- The type `MappedProductOptions`: an option name and its values in order. -/
structure MappedProductOptions where
  name : String
  optionValues : List OptionValue
  deriving DecidableEq, Repr

/-- The expression `swatch?.image?.previewImage?.url` of line 211. -/
def swatchImage (swatch : JsOpt ProductOptionValueSwatch) : JsOpt String :=
  ((swatch.chain (fun s => s.image)).chain (fun i => i.previewImage)).chain (fun p => p.url)

/-- The expression `swatch?.color` of line 212. -/
def swatchColor (swatch : JsOpt ProductOptionValueSwatch) : JsOpt String :=
  swatch.chain (fun s => s.color)

/-- The component `ProductOptionSwatch` (lines 210-227): the node it returns.
The expression `!!image && <img .../>` is the `img` element or `false`. -/
def ProductOptionSwatch (swatch : JsOpt ProductOptionValueSwatch) (name : String) : Node :=
  let image := swatchImage swatch
  let color := swatchColor swatch
  if !image.truthy && !color.truthy then .text name
  else
    .element "div" none
      [("aria-label", .str name),
       ("className", .str "product-option-label-swatch"),
       ("style", .style
          [("backgroundColor", .str (color.or (.value "transparent")).toJsString)])]
      [if image.truthy then
         .element "img" none [("src", .str image.toJsString), ("alt", .str name)] []
       else .bool false]

/-- The swatch holds the non-empty preview image URL `url`. -/
def HasImage (swatch : JsOpt ProductOptionValueSwatch) (url : String) : Prop :=
  ∃ s i p, swatch = .value s ∧ s.image = .value i ∧ i.previewImage = .value p ∧
    p.url = .value url ∧ url ≠ ""

/-- The swatch holds the non-empty color `color`. -/
def HasColor (swatch : JsOpt ProductOptionValueSwatch) (color : String) : Prop :=
  ∃ s, swatch = .value s ∧ s.color = .value color ∧ color ≠ ""

/-- The `style` object of an option value control (lines 124-129, 147-152). -/
def controlStyle (selected available : Bool) : PropValue :=
  .style
    [("border", .str (if selected then "1px solid black" else "1px solid transparent")),
     ("opacity", .num (if available then 1 else 0.3))]

/-- The callback of `option.optionValues.map` (lines 99-167): the control of
one option value of the option named `optionName`. Its child
`<ProductOptionSwatch>` is given as the node that component returns. -/
def optionValueControl (optionName : String) (value : OptionValue) : Node :=
  if value.isDifferentProduct then
    .element "Link" (some (optionName ++ value.name))
      [("className", .str "product-options-item"),
       ("prefetch", .str "intent"),
       ("preventScrollReset", .bool true),
       ("replace", .bool true),
       ("to", .str ("/products/" ++ value.handle ++ "?" ++ value.variantUriQuery)),
       ("style", controlStyle value.selected value.available)]
      [ProductOptionSwatch value.swatch value.name]
  else
    .element "button" (some (optionName ++ value.name))
      [("type", .str "button"),
       ("className", .str ("product-options-item" ++
          (if value.«exists» && !value.selected then " link" else ""))),
       ("style", controlStyle value.selected value.available),
       ("disabled", .bool (!value.«exists»)),
       ("onClick", .handler
          (if !value.selected then [.navigate ("?" ++ value.variantUriQuery) true true]
           else []))]
      [ProductOptionSwatch value.swatch value.name]

/-- The callback of `productOptions.map` (lines 91-172): the group of one
option, or `null` when the option has a single value. -/
def optionGroup (option : MappedProductOptions) : Node :=
  if option.optionValues.length = 1 then .null
  else
    .element "div" (some option.name) [("className", .str "product-options")]
      [.element "h5" none [] [.text option.name],
       .element "div" none [("className", .str "product-options-grid")]
         [.array (option.optionValues.map (optionValueControl option.name))],
       .element "br" none [] []]

/-- The property access `selectedVariant.id`, a `TypeError` on a nullish
`selectedVariant`. -/
def selectedVariantId : JsOpt Variant → Except Fault String
  | .value v => .ok v.id
  | .null => .error (.typeError "Cannot read properties of null (reading 'id')")
  | .undefined => .error (.typeError "Cannot read properties of undefined (reading 'id')")

/-- Truthiness of `selectedVariant`: an object is truthy, a nullish value is not. -/
def truthyVariant : JsOpt Variant → Bool
  | .value _ => true
  | _ => false

/-- The expression `selectedVariant?.availableForSale` of line 190 and, behind
the guard `!selectedVariant ||`, `selectedVariant.availableForSale` of line
174, as a truth value. -/
def availableForSale : JsOpt Variant → Bool
  | .value v => v.availableForSale
  | _ => false

/-- The element `<AddToCartButton>` of lines 173-191. -/
def addToCartButton (selectedVariant : JsOpt Variant) : Node :=
  .element "AddToCartButton" none
    [("disabled", .bool (!truthyVariant selectedVariant || !availableForSale selectedVariant)),
     ("onClick", .handler [.openAside "cart"]),
     ("lines", .lines
        (match selectedVariant with
         | .value v => [{ merchandiseId := v.id, quantity := 1, selectedVariant := v }]
         | _ => []))]
    [.text (if availableForSale selectedVariant then "Add to cart" else "Sold out")]

/-- The element `<BuyNowButton>` of lines 193-198, given the value read from
`selectedVariant.id`. -/
def buyNowButton (variantId : String) : Node :=
  .element "BuyNowButton" none
    [("variantId", .str variantId), ("quantity", .num 1)]
    [.element "span" none [] [.text "Buy Now"]]

/-- The component `ProductForm` (lines 78-202): the element it returns, or the
fault it throws. The children are evaluated in source order: the option
groups, the `AddToCartButton`, then the `BuyNowButton`. -/
def ProductForm (productOptions : List MappedProductOptions)
    (selectedVariant : JsOpt Variant) : Except Fault Node := do
  let groups : Node := .array (productOptions.map optionGroup)
  let addToCart := addToCartButton selectedVariant
  let variantId ← selectedVariantId selectedVariant
  let buyNow := buyNowButton variantId
  pure
    (.element "CartProvider" none
      [("onLineAdd", .handler [.consoleLog "a line is being added"]),
       ("onLineAddComplete", .handler [.consoleLog "a line has been added"])]
      [.element "div" none [("className", .str "product-form")]
        [groups, addToCart, buyNow]])

/-! ## Facts about the cart-submit handler -/

theorem truthyString_iff (s : String) : truthyString s = true ↔ s ≠ "" := by
  cases s with
  | mk data =>
    cases data with
    | nil => simp [truthyString]
    | cons c t =>
      simp only [truthyString, bne_iff_ne, ne_eq, not_false_eq_true, true_iff, reduceCtorEq]
      intro h
      have h2 := congrArg String.data h
      simp at h2

theorem chain_truthy_iff (payload : JsOpt CartPayload) :
    ((payload.chain (fun p => p.cart)).chain (fun c => c.checkoutUrl)).truthy = true
      ↔ ∃ url, HasCheckoutUrl payload url := by
  constructor
  · intro h
    cases payload with
    | undefined => simp [JsOpt.chain, JsOpt.truthy] at h
    | null => simp [JsOpt.chain, JsOpt.truthy] at h
    | value p =>
      cases hc : p.cart with
      | undefined => simp [JsOpt.chain, JsOpt.truthy, hc] at h
      | null => simp [JsOpt.chain, JsOpt.truthy, hc] at h
      | value c =>
        cases hu : c.checkoutUrl with
        | undefined => simp [JsOpt.chain, JsOpt.truthy, hc, hu] at h
        | null => simp [JsOpt.chain, JsOpt.truthy, hc, hu] at h
        | value u =>
          simp only [JsOpt.chain, JsOpt.truthy, hc, hu] at h
          exact ⟨u, p, c, rfl, hc, hu, (truthyString_iff u).1 h⟩
  · rintro ⟨u, p, c, rfl, hc, hu, hne⟩
    simp only [JsOpt.chain, JsOpt.truthy, hc, hu]
    exact (truthyString_iff u).2 hne

theorem chain_eq_of_has (payload : JsOpt CartPayload) (url : String)
    (h : HasCheckoutUrl payload url) :
    (payload.chain (fun p => p.cart)).chain (fun c => c.checkoutUrl) = .value url := by
  obtain ⟨p, c, rfl, hc, hu, _⟩ := h
  simp only [JsOpt.chain, hc, hu]

theorem dropWhile_eq_self_of_head {α : Type} (p : α → Bool) (l : List α)
    (h : ∀ a, l.head? = some a → p a = false) : l.dropWhile p = l := by
  cases l with
  | nil => rfl
  | cons a t => simp [List.dropWhile_cons, h a rfl]

theorem dropWhile_append_of_all {α : Type} (p : α → Bool) (l₁ l₂ : List α)
    (h₁ : ∀ a ∈ l₁, p a = true) (h₂ : ∀ a, l₂.head? = some a → p a = false) :
    (l₁ ++ l₂).dropWhile p = l₂ := by
  induction l₁ with
  | nil => exact dropWhile_eq_self_of_head p l₂ h₂
  | cons a t ih =>
    simp only [List.cons_append, List.dropWhile_cons, h₁ a (List.mem_cons_self a t), if_true]
    exact ih (fun b hb => h₁ b (List.mem_cons_of_mem a hb))

theorem normalizeHeaderValue_eq_self (value : List Char)
    (hh : ∀ c, value.head? = some c → isHttpWhitespace c = false)
    (hl : ∀ c, value.getLast? = some c → isHttpWhitespace c = false) :
    normalizeHeaderValue value = value := by
  unfold normalizeHeaderValue
  rw [dropWhile_eq_self_of_head _ value hh, dropWhile_eq_self_of_head _ value.reverse]
  · exact List.reverse_reverse value
  · intro c hc
    rw [List.head?_reverse] at hc
    exact hl c hc

theorem headersSet_of_isHeaderValue (url : String) (h : IsHeaderValue url) :
    headersSet url = .ok url := by
  obtain ⟨hall, hh, hl⟩ := h
  have h1 : url.data.any (fun c => 0xFF < c.toNat) = false := by
    rw [List.any_eq_false]
    intro c hc
    have := (hall c hc).1
    simp only [decide_eq_true_eq]
    omega
  have h2 : url.data.any (fun c => c.toNat = 0x00 || c.toNat = 0x0A || c.toNat = 0x0D) = false := by
    rw [List.any_eq_false]
    intro c hc
    have := hall c hc
    simp [this.2.1, this.2.2.1, this.2.2.2]
  simp only [headersSet, h1, normalizeHeaderValue_eq_self _ hh hl, h2, Bool.false_eq_true,
    if_false]

theorem redirect_of_isHeaderValue (url : String) (h : IsHeaderValue url) :
    redirect (.value url) = .ok { status := 302, location := url } := by
  simp only [redirect, JsOpt.toJsString, headersSet_of_isHeaderValue url h]

theorem normalizeHeaderValue_of_stripsTo (url : String) (core : List Char)
    (h : StripsTo url core) : normalizeHeaderValue url.data = core := by
  obtain ⟨leading, trailing, hs, hl, ht, hh, hlast⟩ := h
  rw [hs]
  unfold normalizeHeaderValue
  cases core with
  | nil =>
    have hall : ∀ c ∈ leading ++ ([] ++ trailing), isHttpWhitespace c = true := by
      intro c hc
      simp only [List.nil_append, List.mem_append] at hc
      exact hc.elim (hl c) (ht c)
    have h1 : (leading ++ ([] ++ trailing)).dropWhile isHttpWhitespace = [] :=
      List.dropWhile_eq_nil_iff.2 hall
    rw [h1]
    rfl
  | cons d t =>
    have h1 : (leading ++ (d :: t ++ trailing)).dropWhile isHttpWhitespace
        = d :: t ++ trailing := by
      apply dropWhile_append_of_all _ _ _ hl
      intro c hc
      exact hh c (by simpa using hc)
    rw [h1, List.reverse_append]
    have h2 : (trailing.reverse ++ (d :: t).reverse).dropWhile isHttpWhitespace
        = (d :: t).reverse := by
      apply dropWhile_append_of_all
      · intro c hc
        exact ht c (List.mem_reverse.1 hc)
      · intro c hc
        rw [List.head?_reverse] at hc
        exact hlast c hc
    rw [h2, List.reverse_reverse]

theorem action_result_of_url (mutate : MutationCall → Except Fault MutationResponse)
    (formData : FormData) (cart : MutationResponse)
    (hm : mutate (mutationCall formData) = .ok cart) (url : String)
    (hor : (createCheckoutUrl cart).or (addCheckoutUrl cart) = .value url)
    (ht : (JsOpt.value url).truthy = true) :
    (action mutate formData).result = Except.map some (redirect (.value url)) := by
  simp only [action, hm, hor, ht, if_true]
  cases redirect (.value url) <;> rfl

theorem or_eq_of_firstCheckoutUrl (cart : MutationResponse) (url : String)
    (h : FirstCheckoutUrl cart url) :
    (createCheckoutUrl cart).or (addCheckoutUrl cart) = .value url ∧
      (JsOpt.value url).truthy = true := by
  rcases h with h | ⟨hno, h⟩
  · have ht : (createCheckoutUrl cart).truthy = true :=
      (chain_truthy_iff cart.cartCreate).2 ⟨url, h⟩
    have he : createCheckoutUrl cart = .value url := chain_eq_of_has _ _ h
    refine ⟨?_, he ▸ ht⟩
    simp only [JsOpt.or, ht, if_true]
    exact he
  · have ht : (createCheckoutUrl cart).truthy = false := by
      cases hb : (createCheckoutUrl cart).truthy with
      | false => rfl
      | true => exact absurd ((chain_truthy_iff cart.cartCreate).1 hb) hno
    have ht2 : (addCheckoutUrl cart).truthy = true :=
      (chain_truthy_iff cart.cartLinesAdd).2 ⟨url, h⟩
    have he : addCheckoutUrl cart = .value url := chain_eq_of_has _ _ h
    refine ⟨?_, he ▸ ht2⟩
    simp only [JsOpt.or, ht, Bool.false_eq_true, if_false]
    exact he

/-- C1, as the spec states it, fails: a checkout URL with a leading and a
trailing space is a non-empty string, and the handler redirects to the URL
without them, not to exactly that string; a checkout URL with a character
above U+00FF makes the handler throw instead of returning a redirect. -/
theorem action_redirect_not_exact_url :
    (action (fun _ => .ok
        { cartCreate := .value ⟨.value ⟨.value "c1", .value " https://shop/create "⟩⟩
          cartLinesAdd := .undefined })
      ⟨[("variantId", "v")]⟩).result
      = .ok (some { status := 302, location := "https://shop/create" }) ∧
    (action (fun _ => .ok
        { cartCreate := .value ⟨.value ⟨.value "c1", .value "https://shop/✓"⟩⟩
          cartLinesAdd := .undefined })
      ⟨[("variantId", "v")]⟩).result
      = .error (.typeError "Headers.set: the value is not a byte string") := by
  constructor <;> rfl

/-- C1, amended: for every form submission (hence either mutation) and every
response, when `url` is the first non-empty checkout URL of the response
(the `cartCreate` one whenever it is non-empty, whatever `cartLinesAdd`
holds), the handler returns what `redirect` returns for exactly that URL.
For a URL that is a header value as it stands, that is a redirect of status
302 whose target is exactly the URL. In general the target is the URL
without its leading and trailing HTTP whitespace, and the handler throws a
`TypeError` when the URL has a character above U+00FF or when NUL, line feed
or carriage return is left inside. -/
theorem action_redirects_to_checkoutUrl
    (mutate : MutationCall → Except Fault MutationResponse) (formData : FormData)
    (cart : MutationResponse) (hm : mutate (mutationCall formData) = .ok cart)
    (url : String) (hurl : FirstCheckoutUrl cart url) :
    (action mutate formData).result = Except.map some (redirect (.value url)) ∧
    (IsHeaderValue url →
      (action mutate formData).result = .ok (some { status := 302, location := url })) ∧
    (∀ core, (∀ c ∈ url.data, c.toNat ≤ 0xFF) → StripsTo url core →
      (∀ c ∈ core, c.toNat ≠ 0x00 ∧ c.toNat ≠ 0x0A ∧ c.toNat ≠ 0x0D) →
      (action mutate formData).result
        = .ok (some { status := 302, location := String.mk core })) ∧
    ((∃ c ∈ url.data, 0xFF < c.toNat) →
      ∃ message, (action mutate formData).result = .error (.typeError message)) ∧
    (∀ core, (∀ c ∈ url.data, c.toNat ≤ 0xFF) → StripsTo url core →
      (∃ c ∈ core, c.toNat = 0x00 ∨ c.toNat = 0x0A ∨ c.toNat = 0x0D) →
      ∃ message, (action mutate formData).result = .error (.typeError message)) := by
  obtain ⟨hor, ht⟩ := or_eq_of_firstCheckoutUrl cart url hurl
  have hres := action_result_of_url mutate formData cart hm url hor ht
  refine ⟨hres, ?_, ?_, ?_, ?_⟩
  · intro hv
    rw [hres, redirect_of_isHeaderValue url hv]
    rfl
  · intro core hbyte hstrip hok
    have h1 : url.data.any (fun c => 0xFF < c.toNat) = false := by
      rw [List.any_eq_false]
      intro c hc
      have := hbyte c hc
      simp only [decide_eq_true_eq]
      omega
    have h2 : core.any (fun c => c.toNat = 0x00 || c.toNat = 0x0A || c.toNat = 0x0D) = false := by
      rw [List.any_eq_false]
      intro c hc
      have := hok c hc
      simp [this.1, this.2.1, this.2.2]
    rw [hres]
    simp only [redirect, JsOpt.toJsString, headersSet, h1, Bool.false_eq_true, if_false,
      normalizeHeaderValue_of_stripsTo url core hstrip, h2]
    rfl
  · rintro ⟨c, hc, hbig⟩
    have h1 : url.data.any (fun c => 0xFF < c.toNat) = true := by
      rw [List.any_eq_true]
      exact ⟨c, hc, by simpa using hbig⟩
    rw [hres]
    simp only [redirect, JsOpt.toJsString, headersSet, h1, if_true]
    exact ⟨_, rfl⟩
  · rintro core hbyte hstrip ⟨c, hc, hbad⟩
    have h1 : url.data.any (fun c => 0xFF < c.toNat) = false := by
      rw [List.any_eq_false]
      intro c hc
      have := hbyte c hc
      simp only [decide_eq_true_eq]
      omega
    have h2 : core.any (fun c => c.toNat = 0x00 || c.toNat = 0x0A || c.toNat = 0x0D) = true := by
      rw [List.any_eq_true]
      refine ⟨c, hc, ?_⟩
      rcases hbad with h | h | h <;> simp [h]
    rw [hres]
    simp only [redirect, JsOpt.toJsString, headersSet, h1, Bool.false_eq_true, if_false,
      normalizeHeaderValue_of_stripsTo url core hstrip, h2, if_true]
    exact ⟨_, rfl⟩

/-- Witness of C1 (amended): a response with both URLs redirects to the
`cartCreate` one, here after an add-lines call. -/
theorem action_redirects_to_checkoutUrl_witness :
    (action (fun _ => .ok
        { cartCreate := .value ⟨.value ⟨.value "c1", .value "https://shop/create"⟩⟩
          cartLinesAdd := .value ⟨.value ⟨.value "c1", .value "https://shop/add"⟩⟩ })
      ⟨[("variantId", "v"), ("cartId", "c1")]⟩).result
      = .ok (some { status := 302, location := "https://shop/create" }) :=
  (action_redirects_to_checkoutUrl _ ⟨[("variantId", "v"), ("cartId", "c1")]⟩
    { cartCreate := .value ⟨.value ⟨.value "c1", .value "https://shop/create"⟩⟩
      cartLinesAdd := .value ⟨.value ⟨.value "c1", .value "https://shop/add"⟩⟩ } rfl
    "https://shop/create" (Or.inl ⟨_, _, rfl, rfl, rfl, by decide⟩)).2.1
    ⟨by decide, by decide, by decide⟩

theorem chain_truthy_false_iff (payload : JsOpt CartPayload) :
    ((payload.chain (fun p => p.cart)).chain (fun c => c.checkoutUrl)).truthy = false
      ↔ Unpopulated payload := by
  unfold Unpopulated
  cases payload with
  | undefined => simp [JsOpt.chain, JsOpt.truthy]
  | null => simp [JsOpt.chain, JsOpt.truthy]
  | value p =>
    cases hc : p.cart with
    | undefined => simp [JsOpt.chain, JsOpt.truthy, hc]
    | null => simp [JsOpt.chain, JsOpt.truthy, hc]
    | value c =>
      cases hu : c.checkoutUrl with
      | undefined => simp [JsOpt.chain, JsOpt.truthy, hc, hu]
      | null => simp [JsOpt.chain, JsOpt.truthy, hc, hu]
      | value u =>
        have h1 := truthyString_iff u
        by_cases hne : u = ""
        · have h2 : truthyString u = false := by
            cases hb : truthyString u with
            | false => rfl
            | true => exact absurd hne (h1.1 hb)
          subst hne
          simp [JsOpt.chain, JsOpt.truthy, hc, hu, h2]
        · simp [JsOpt.chain, JsOpt.truthy, hc, hu, h1.2 hne, hne]

/-- C4: for every mutation response, the handler returns `null` (and so no
redirect) exactly when neither `cartCreate` nor `cartLinesAdd` holds a
checkout URL: the field object, its cart or its `checkoutUrl` is missing,
`null` or the empty string. -/
theorem action_null_iff_no_checkoutUrl
    (mutate : MutationCall → Except Fault MutationResponse) (formData : FormData)
    (cart : MutationResponse) (hm : mutate (mutationCall formData) = .ok cart) :
    (action mutate formData).result = .ok none
      ↔ Unpopulated cart.cartCreate ∧ Unpopulated cart.cartLinesAdd := by
  rw [← chain_truthy_false_iff, ← chain_truthy_false_iff]
  change _ ↔ (createCheckoutUrl cart).truthy = false ∧ (addCheckoutUrl cart).truthy = false
  simp only [action, hm, JsOpt.or]
  cases h1 : (createCheckoutUrl cart).truthy <;> cases h2 : (addCheckoutUrl cart).truthy <;>
    simp only [h1, h2, Bool.false_eq_true, if_false, if_true, and_self, and_false, false_and,
      iff_false, iff_true, reduceCtorEq, not_false_eq_true]
  · intro h
    cases hr : redirect (addCheckoutUrl cart) <;> simp [hr] at h
  · intro h
    cases hr : redirect (createCheckoutUrl cart) <;> simp [hr] at h
  · intro h
    cases hr : redirect (createCheckoutUrl cart) <;> simp [hr] at h

/-- Witness of C4: a response whose cart is `null` under `cartCreate` and whose
URL is empty under `cartLinesAdd` gives `null`. -/
theorem action_null_iff_no_checkoutUrl_witness :
    (action (fun _ => .ok
        { cartCreate := .value ⟨.null⟩
          cartLinesAdd := .value ⟨.value ⟨.value "c1", .value ""⟩⟩ })
      ⟨[("variantId", "v")]⟩).result = .ok none :=
  (action_null_iff_no_checkoutUrl _ ⟨[("variantId", "v")]⟩
    { cartCreate := .value ⟨.null⟩
      cartLinesAdd := .value ⟨.value ⟨.value "c1", .value ""⟩⟩ } rfl).2
    ⟨Or.inr (Or.inr ⟨_, rfl, Or.inr (Or.inl rfl)⟩),
     Or.inr (Or.inr ⟨_, rfl, Or.inr (Or.inr ⟨_, rfl, Or.inr (Or.inr rfl)⟩)⟩)⟩

theorem action_calls (mutate : MutationCall → Except Fault MutationResponse)
    (formData : FormData) : (action mutate formData).calls = [mutationCall formData] := by
  simp only [action]
  cases hm : mutate (mutationCall formData) with
  | error e => rfl
  | ok cart =>
    simp only []
    split
    · split <;> rfl
    · rfl

/-- C2, as the spec states it, fails: a submission whose `cartId` field is
present and empty makes the handler call the create-cart mutation, not the
add-lines one. -/
theorem action_empty_cartId_creates_cart :
    (FormData.get ⟨[("variantId", "gid://shop/Variant/1"), ("cartId", "")]⟩ "cartId").isSome = true ∧
    (action (fun _ => .ok ⟨.undefined, .undefined⟩)
        ⟨[("variantId", "gid://shop/Variant/1"), ("cartId", "")]⟩).calls
      = [{ mutation := .CREATE_CART_MUTATION
           vars := .input { lines := [{ merchandiseId := some "gid://shop/Variant/1"
                                        quantity := .int 1 }] } }] := by
  decide

/-- C2, amended: for every submission whose `cartId` field is present, the
handler makes exactly one mutation call. When the `cartId` is not the empty
string it is the add-lines mutation, with variables carrying that `cartId`
and one line, and no create-cart call is made; when the `cartId` is the empty
string it is the create-cart mutation with one line, as for an absent
`cartId`, and no add-lines call is made. -/
theorem action_cartId_adds_line
    (mutate : MutationCall → Except Fault MutationResponse) (formData : FormData)
    (cartId : String) (hc : formData.get "cartId" = some cartId) :
    (cartId ≠ "" →
      (∃ line, (action mutate formData).calls
          = [{ mutation := .ADD_LINES_MUTATION, vars := .cartIdLines (some cartId) [line] }]) ∧
      (∀ call ∈ (action mutate formData).calls, call.mutation ≠ .CREATE_CART_MUTATION)) ∧
    (cartId = "" →
      (∃ line, (action mutate formData).calls
          = [{ mutation := .CREATE_CART_MUTATION, vars := .input { lines := [line] } }]) ∧
      (∀ call ∈ (action mutate formData).calls, call.mutation ≠ .ADD_LINES_MUTATION)) := by
  constructor
  · intro hne
    have ht : truthyString cartId = true := (truthyString_iff cartId).2 hne
    have hcall : ∃ line, mutationCall formData
        = { mutation := .ADD_LINES_MUTATION, vars := .cartIdLines (some cartId) [line] } := by
      simp only [mutationCall, hc, truthyField, ht, if_true]
      exact ⟨_, rfl⟩
    obtain ⟨line, hl⟩ := hcall
    rw [action_calls, hl]
    refine ⟨⟨line, rfl⟩, ?_⟩
    intro call hmem
    simp only [List.mem_singleton] at hmem
    subst hmem
    simp
  · intro he
    subst he
    have hcall : ∃ line, mutationCall formData
        = { mutation := .CREATE_CART_MUTATION, vars := .input { lines := [line] } } := by
      simp only [mutationCall, hc, truthyField, truthyString]
      exact ⟨_, rfl⟩
    obtain ⟨line, hl⟩ := hcall
    rw [action_calls, hl]
    refine ⟨⟨line, rfl⟩, ?_⟩
    intro call hmem
    simp only [List.mem_singleton] at hmem
    subst hmem
    simp

/-- Witness of C2 (amended) at the cart id `c1`. -/
theorem action_cartId_adds_line_witness :
    (∃ line, (action (fun _ => .ok ⟨.undefined, .undefined⟩)
        ⟨[("variantId", "v"), ("cartId", "c1")]⟩).calls
        = [{ mutation := .ADD_LINES_MUTATION, vars := .cartIdLines (some "c1") [line] }]) ∧
    (∀ call ∈ (action (fun _ => .ok ⟨.undefined, .undefined⟩)
        ⟨[("variantId", "v"), ("cartId", "c1")]⟩).calls,
      call.mutation ≠ .CREATE_CART_MUTATION) :=
  (action_cartId_adds_line _ ⟨[("variantId", "v"), ("cartId", "c1")]⟩ "c1" (by decide)).1
    (by decide)

/-- C3: every run of the handler makes exactly one mutation call; when the
`cartId` field is absent that call is the create-cart mutation with
`input.lines` a list of exactly one line, and no add-lines call is made. -/
theorem action_no_cartId_creates_cart
    (mutate : MutationCall → Except Fault MutationResponse) (formData : FormData) :
    (action mutate formData).calls.length = 1 ∧
    (formData.get "cartId" = none →
      (∃ line, (action mutate formData).calls
          = [{ mutation := .CREATE_CART_MUTATION, vars := .input { lines := [line] } }]) ∧
      (∀ call ∈ (action mutate formData).calls, call.mutation ≠ .ADD_LINES_MUTATION)) := by
  refine ⟨by rw [action_calls]; rfl, ?_⟩
  intro hc
  have hcall : ∃ line, mutationCall formData
      = { mutation := .CREATE_CART_MUTATION, vars := .input { lines := [line] } } := by
    simp only [mutationCall, hc, truthyField]
    exact ⟨_, rfl⟩
  obtain ⟨line, hl⟩ := hcall
  rw [action_calls, hl]
  refine ⟨⟨line, rfl⟩, ?_⟩
  intro call hmem
  simp only [List.mem_singleton] at hmem
  subst hmem
  simp

/-- Witness of C3 at a submission with no `cartId` field. -/
theorem action_no_cartId_creates_cart_witness :
    (∃ line, (action (fun _ => .ok ⟨.undefined, .undefined⟩)
        ⟨[("variantId", "v"), ("quantity", "2")]⟩).calls
        = [{ mutation := .CREATE_CART_MUTATION, vars := .input { lines := [line] } }]) ∧
    (∀ call ∈ (action (fun _ => .ok ⟨.undefined, .undefined⟩)
        ⟨[("variantId", "v"), ("quantity", "2")]⟩).calls,
      call.mutation ≠ .ADD_LINES_MUTATION) :=
  (action_no_cartId_creates_cart _ ⟨[("variantId", "v"), ("quantity", "2")]⟩).2 (by decide)

/-! ### The quantity sent -/

theorem isDigit_iff (c : Char) : c.isDigit = true ↔ 48 ≤ c.toNat ∧ c.toNat ≤ 57 := by
  simp only [Char.isDigit, Bool.and_eq_true, decide_eq_true_eq, ge_iff_le, Char.toNat,
    UInt32.le_def, Fin.le_def]
  rfl

theorem radixDigit_ten_of_digit (c : Char) (h : c.isDigit = true) :
    radixDigit 10 c = some (c.toNat - 48) := by
  rw [isDigit_iff] at h
  have h1 : c.toNat - 48 < 10 := by omega
  simp [radixDigit, digitValue, h, h1]

theorem not_white_of_digit (c : Char) (h : c.isDigit = true) :
    isStrWhiteSpaceChar c = false := by
  rw [isDigit_iff] at h
  simp only [isStrWhiteSpaceChar, Bool.or_eq_false_iff, Bool.and_eq_false_iff,
    decide_eq_false_iff_not, List.mem_cons, List.mem_singleton, List.not_mem_nil, or_false]
  generalize c.toNat = n at h
  constructor <;> omega

theorem foldl_digits (cs : List Char) (hd : ∀ c ∈ cs, c.isDigit = true) (acc : Nat) :
    cs.foldl (fun acc c => acc * 10 + (radixDigit 10 c).getD 0) acc
      = cs.foldl (fun n c => n * 10 + (c.toNat - '0'.toNat)) acc := by
  induction cs generalizing acc with
  | nil => rfl
  | cons c t ih =>
    have hc := radixDigit_ten_of_digit c (hd c (List.mem_cons_self c t))
    simp only [List.foldl_cons, hc, Option.getD_some]
    exact ih (fun d hd2 => hd d (List.mem_cons_of_mem c hd2)) _

theorem roundToDouble_of_lt (n : Nat) (h : n < 2 ^ 53) : roundToDouble n = some n := by
  unfold roundToDouble
  rw [if_pos h]

theorem isSome_radixDigit_ten (c : Char) : (radixDigit 10 c).isSome = c.isDigit := by
  cases h : c.isDigit with
  | true => simp [radixDigit_ten_of_digit c h]
  | false =>
    have h2 : ¬ (48 ≤ c.toNat ∧ c.toNat ≤ 57) := by
      intro hd
      rw [(isDigit_iff c).2 hd] at h
      exact Bool.noConfusion h
    simp only [radixDigit, digitValue, h2, if_false]
    split_ifs <;> simp

theorem takeWhile_digits_append (digits rest : List Char)
    (hd : ∀ c ∈ digits, c.isDigit = true) (hr : ∀ c, rest.head? = some c → c.isDigit = false) :
    (digits ++ rest).takeWhile (fun c => (radixDigit 10 c).isSome) = digits := by
  have hfun : (fun c => (radixDigit 10 c).isSome) = Char.isDigit :=
    funext isSome_radixDigit_ten
  rw [hfun]
  induction digits with
  | nil =>
    cases rest with
    | nil => rfl
    | cons c t => simp [List.takeWhile_cons, hr c rfl]
  | cons d t ih =>
    simp only [List.cons_append, List.takeWhile_cons, hd d (List.mem_cons_self d t), if_true]
    rw [ih (fun c hc => hd c (List.mem_cons_of_mem d hc))]

theorem not_hex_of_digits (digits rest : List Char) (hne : digits ≠ [])
    (hd : ∀ c ∈ digits, c.isDigit = true)
    (hx : ¬ (digits = ['0'] ∧ (rest.head? = some 'x' ∨ rest.head? = some 'X'))) :
    ((digits ++ rest).take 2 = ['0', 'x'] ∨ (digits ++ rest).take 2 = ['0', 'X']) = False := by
  obtain ⟨d, t, rfl⟩ := List.exists_cons_of_ne_nil hne
  cases t with
  | nil =>
    cases rest with
    | nil => simp
    | cons r rs =>
      simp only [List.cons_append, List.nil_append, List.take_succ_cons, List.take_zero,
        List.cons.injEq, and_true, eq_iff_iff, iff_false, not_or, not_and]
      simp only [List.head?_cons, Option.some.injEq, List.cons.injEq, and_true, not_and,
        not_or] at hx
      constructor
      · intro h0 h1
        exact (hx h0).1 h1
      · intro h0 h1
        exact (hx h0).2 h1
  | cons d2 t2 =>
    have hd2 := (isDigit_iff d2).1 (hd d2 (by simp))
    simp only [List.cons_append, List.take_succ_cons, List.take_zero, List.cons.injEq,
      and_true, eq_iff_iff, iff_false, not_or, not_and]
    constructor <;> (rintro _ rfl; simp at hd2)

theorem foldl_digits_append_nil (digits : List Char) (hd : ∀ c ∈ digits, c.isDigit = true) :
    digits.foldl (fun acc c => acc * 10 + (radixDigit 10 c).getD 0) 0 = decimalValue digits := by
  rw [foldl_digits digits hd 0]
  rfl

/-- What `parseInt` does on a list that starts with a non-empty run of decimal
digits not followed by a digit, once white space and sign are gone. -/
theorem parseInt_core (negative : Bool) (digits rest : List Char) (hne : digits ≠ [])
    (hd : ∀ c ∈ digits, c.isDigit = true) (hr : ∀ c, rest.head? = some c → c.isDigit = false)
    (hx : ¬ (digits = ['0'] ∧ (rest.head? = some 'x' ∨ rest.head? = some 'X')))
    (hlt : decimalValue digits < 2 ^ 53) :
    (let S := digits ++ rest
     let hex : Bool := S.take 2 = ['0', 'x'] ∨ S.take 2 = ['0', 'X']
     let R := if hex then 16 else 10
     let S := if hex then S.drop 2 else S
     let Z := S.takeWhile (fun c => (radixDigit R c).isSome)
     if Z.isEmpty then JSNumber.nan
     else
       let mathInt := Z.foldl (fun acc c => acc * R + (radixDigit R c).getD 0) 0
       if mathInt = 0 then (if negative then JSNumber.negZero else JSNumber.int 0)
       else
         match roundToDouble mathInt with
         | some v => JSNumber.int (if negative then -(v : Int) else (v : Int))
         | none => if negative then JSNumber.negInfinity else JSNumber.posInfinity)
      = signedInteger negative (decimalValue digits) := by
  have hempty : digits.isEmpty = false := by
    cases digits with
    | nil => exact absurd rfl hne
    | cons d t => rfl
  simp only [not_hex_of_digits digits rest hne hd hx, decide_False, Bool.false_eq_true, if_false,
    takeWhile_digits_append digits rest hd hr, hempty, foldl_digits_append_nil digits hd,
    roundToDouble_of_lt _ hlt, signedInteger]
  by_cases h0 : decimalValue digits = 0
  · cases negative <;> simp [h0]
  · cases negative <;> simp [h0]

/-- A string that reads as a decimal integer below `2^53` is read by
`parseInt` as that integer with its sign. -/
theorem parseInt_of_readsAsInteger (s : String) (negative : Bool) (digits : List Char)
    (h : ReadsAsInteger s negative digits) (hlt : decimalValue digits < 2 ^ 53) :
    parseInt s = signedInteger negative (decimalValue digits) := by
  obtain ⟨ws, sign, rest, hs, hws, hsign, hne, hd, hr, hx⟩ := h
  obtain ⟨d, t, rfl⟩ := List.exists_cons_of_ne_nil hne
  have hdd := hd d (List.mem_cons_self d t)
  have hd2 := (isDigit_iff d).1 hdd
  have hplus : d ≠ '+' := by rintro rfl; simp at hd2
  have hminus : d ≠ '-' := by rintro rfl; simp at hd2
  have hcore := parseInt_core negative (d :: t) rest hne hd hr hx hlt
  rcases hsign with ⟨rfl, rfl⟩ | ⟨rfl, rfl⟩ | ⟨rfl, rfl⟩
  · have hdrop : (ws ++ ([] ++ (d :: t ++ rest))).dropWhile isStrWhiteSpaceChar
        = d :: t ++ rest := by
      apply dropWhile_append_of_all _ _ _ hws
      intro c hc
      simp only [List.nil_append, List.cons_append, List.head?_cons, Option.some.injEq] at hc
      subst hc
      exact not_white_of_digit _ hdd
    simp only [parseInt, hs, hdrop]
    simp only [List.cons_append, List.head?_cons, Option.some.injEq, hplus, hminus, or_self,
      if_false, decide_False]
    exact hcore
  · have hdrop : (ws ++ (['+'] ++ (d :: t ++ rest))).dropWhile isStrWhiteSpaceChar
        = '+' :: (d :: t ++ rest) := by
      apply dropWhile_append_of_all _ _ _ hws
      intro c hc
      simp only [List.singleton_append, List.head?_cons, Option.some.injEq] at hc
      subst hc
      decide
    simp only [parseInt, hs, hdrop]
    simp only [List.head?_cons, Option.some.injEq, true_or, if_true, List.tail_cons]
    have hneg : (decide ('+' = '-')) = false := by decide
    simp only [hneg]
    exact hcore
  · have hdrop : (ws ++ (['-'] ++ (d :: t ++ rest))).dropWhile isStrWhiteSpaceChar
        = '-' :: (d :: t ++ rest) := by
      apply dropWhile_append_of_all _ _ _ hws
      intro c hc
      simp only [List.singleton_append, List.head?_cons, Option.some.injEq] at hc
      subst hc
      decide
    simp only [parseInt, hs, hdrop]
    simp only [List.head?_cons, Option.some.injEq, or_true, if_true, List.tail_cons,
      decide_True]
    exact hcore

theorem not_hex_of_no_digit (rest : List Char)
    (hr : ∀ c, rest.head? = some c → c.isDigit = false) :
    (rest.take 2 = ['0', 'x'] ∨ rest.take 2 = ['0', 'X']) = False := by
  cases rest with
  | nil => simp
  | cons c t =>
    have hc := hr c rfl
    have h0 : c ≠ '0' := by rintro rfl; simp at hc
    cases t with
    | nil => simp
    | cons c2 t2 => simp [h0]

/-- What `parseInt` does on a list that does not start with a decimal digit,
once white space and sign are gone. -/
theorem parseInt_core_nan (negative : Bool) (rest : List Char)
    (hr : ∀ c, rest.head? = some c → c.isDigit = false) :
    (let S := rest
     let hex : Bool := S.take 2 = ['0', 'x'] ∨ S.take 2 = ['0', 'X']
     let R := if hex then 16 else 10
     let S := if hex then S.drop 2 else S
     let Z := S.takeWhile (fun c => (radixDigit R c).isSome)
     if Z.isEmpty then JSNumber.nan
     else
       let mathInt := Z.foldl (fun acc c => acc * R + (radixDigit R c).getD 0) 0
       if mathInt = 0 then (if negative then JSNumber.negZero else JSNumber.int 0)
       else
         match roundToDouble mathInt with
         | some v => JSNumber.int (if negative then -(v : Int) else (v : Int))
         | none => if negative then JSNumber.negInfinity else JSNumber.posInfinity)
      = JSNumber.nan := by
  have htake := takeWhile_digits_append [] rest (by simp) hr
  simp only [List.nil_append] at htake
  simp only [not_hex_of_no_digit rest hr, decide_False, Bool.false_eq_true, if_false, htake,
    List.isEmpty_nil, if_true]

/-- A string with no number to read is read by `parseInt` as `NaN`. -/
theorem parseInt_of_readsNoNumber (s : String) (h : ReadsNoNumber s) : parseInt s = .nan := by
  obtain ⟨ws, sign, rest, hs, hws, hsign, hr, hr0⟩ := h
  rcases hsign with rfl | rfl | rfl
  · have hdrop : (ws ++ ([] ++ rest)).dropWhile isStrWhiteSpaceChar = rest := by
      apply dropWhile_append_of_all _ _ _ hws
      intro c hc
      exact (hr0 rfl c hc).1
    have hhead : (rest.head? = some '+' ∨ rest.head? = some '-') = False := by
      simp only [eq_iff_iff, iff_false, not_or]
      exact ⟨fun hc => (hr0 rfl _ hc).2.1 rfl, fun hc => (hr0 rfl _ hc).2.2 rfl⟩
    simp only [parseInt, hs, hdrop, hhead, if_false]
    exact parseInt_core_nan _ rest hr
  · have hdrop : (ws ++ (['+'] ++ rest)).dropWhile isStrWhiteSpaceChar = '+' :: rest := by
      apply dropWhile_append_of_all _ _ _ hws
      intro c hc
      simp only [List.singleton_append, List.head?_cons, Option.some.injEq] at hc
      subst hc
      decide
    simp only [parseInt, hs, hdrop]
    simp only [List.head?_cons, Option.some.injEq, true_or, if_true, List.tail_cons]
    exact parseInt_core_nan _ rest hr
  · have hdrop : (ws ++ (['-'] ++ rest)).dropWhile isStrWhiteSpaceChar = '-' :: rest := by
      apply dropWhile_append_of_all _ _ _ hws
      intro c hc
      simp only [List.singleton_append, List.head?_cons, Option.some.injEq] at hc
      subst hc
      decide
    simp only [parseInt, hs, hdrop]
    simp only [List.head?_cons, Option.some.injEq, or_true, if_true, List.tail_cons]
    exact parseInt_core_nan _ rest hr

theorem readsAsInteger_ne_empty (s : String) (negative : Bool) (digits : List Char)
    (h : ReadsAsInteger s negative digits) : s ≠ "" := by
  obtain ⟨ws, sign, rest, hs, _, _, hne, _⟩ := h
  rintro rfl
  have h0 : ([] : List Char) = ws ++ (sign ++ (digits ++ rest)) := hs
  have := congrArg List.length h0
  simp only [List.length_nil, List.length_append] at this
  have hpos : 0 < digits.length := List.length_pos.2 hne
  omega

/-- C5, as the spec states it, fails: a supplied quantity that is not a
number makes the line carry `NaN`, which is not an integer. -/
theorem action_quantity_not_integer :
    (action (fun _ => .ok ⟨.undefined, .undefined⟩)
        ⟨[("variantId", "gid://shop/Variant/1"), ("quantity", "abc")]⟩).calls.map MutationCall.lines
      = [[{ merchandiseId := some "gid://shop/Variant/1", quantity := .nan }]] ∧
    JSNumber.isInteger .nan = false := by
  decide

/-- C5, amended: for every form submission, in both branches, the mutation
call carries exactly one line, whose `merchandiseId` is the submitted
`variantId` and whose quantity is: the integer 1 when the quantity field is
absent or empty; `parseInt` of the field when it is not empty; so, when the
field reads as a decimal integer (optional leading white space, an optional
sign, decimal digits of value below `2^53`, then nothing or text that does
not go on the number), that integer with its sign, `-0` for a negative zero;
and `NaN` when the field has no number to read. -/
theorem action_line_of_submission
    (mutate : MutationCall → Except Fault MutationResponse) (formData : FormData) :
    ∃ quantity,
      (action mutate formData).calls.map MutationCall.lines
        = [[{ merchandiseId := formData.get "variantId", quantity := quantity }]] ∧
      (formData.get "quantity" = none ∨ formData.get "quantity" = some "" →
        quantity = .int 1) ∧
      (∀ s, formData.get "quantity" = some s → s ≠ "" → quantity = parseInt s) ∧
      (∀ s negative digits, formData.get "quantity" = some s →
        ReadsAsInteger s negative digits → decimalValue digits < 2 ^ 53 →
        quantity = signedInteger negative (decimalValue digits)) ∧
      (∀ s, formData.get "quantity" = some s → s ≠ "" → ReadsNoNumber s →
        quantity = .nan) := by
  rw [action_calls]
  cases hq : formData.get "quantity" with
  | none =>
    refine ⟨.int 1, ?_, fun _ => rfl, fun s h => by simp at h, fun s n d h => by simp at h,
      fun s h => by simp at h⟩
    simp only [mutationCall, hq]
    split <;> rfl
  | some q =>
    by_cases ht : truthyString q = true
    · have hline : [mutationCall formData].map MutationCall.lines
          = [[{ merchandiseId := formData.get "variantId", quantity := parseInt q }]] := by
        simp only [mutationCall, hq, ht, if_true]
        split <;> rfl
      refine ⟨parseInt q, hline, ?_, ?_, ?_, ?_⟩
      · rintro (h | h)
        · simp at h
        · simp only [Option.some.injEq] at h
          subst h
          simp [truthyString] at ht
      · intro s h _
        simp only [Option.some.injEq] at h
        subst h
        rfl
      · intro s negative digits h hs hn
        simp only [Option.some.injEq] at h
        subst h
        exact parseInt_of_readsAsInteger _ negative digits hs hn
      · intro s h _ hs
        simp only [Option.some.injEq] at h
        subst h
        exact parseInt_of_readsNoNumber _ hs
    · have hempty : q = "" := by
        by_contra hne
        exact ht ((truthyString_iff q).2 hne)
      subst hempty
      refine ⟨.int 1, ?_, fun _ => rfl, ?_, ?_, ?_⟩
      · simp only [mutationCall, hq, ht]
        split <;> rfl
      · intro s h hne
        simp only [Option.some.injEq] at h
        exact absurd h.symm hne
      · intro s negative digits h hs _
        simp only [Option.some.injEq] at h
        subst h
        exact absurd rfl (readsAsInteger_ne_empty _ negative digits hs)
      · intro s h hne
        simp only [Option.some.injEq] at h
        exact absurd h.symm hne

/-- Witness of C5 (amended): the spec's example, variant `gid://shop/Variant/1`
with quantity "2" and no `cartId`, sends one line with that variant and the
integer 2. -/
theorem action_line_of_submission_witness :
    ∃ quantity,
      (action (fun _ => .ok ⟨.undefined, .undefined⟩)
          ⟨[("variantId", "gid://shop/Variant/1"), ("quantity", "2")]⟩).calls.map
            MutationCall.lines
        = [[{ merchandiseId := some "gid://shop/Variant/1", quantity := quantity }]] ∧
      quantity = .int 2 := by
  obtain ⟨q, h1, _, _, h4, _⟩ := action_line_of_submission
    (fun _ => .ok ⟨.undefined, .undefined⟩)
    ⟨[("variantId", "gid://shop/Variant/1"), ("quantity", "2")]⟩
  have hr : ReadsAsInteger "2" false ['2'] :=
    ⟨[], [], [], rfl, by simp, Or.inl ⟨rfl, rfl⟩, by simp, by decide, by simp, by decide⟩
  exact ⟨q, h1, h4 "2" false ['2'] (by decide) hr (by decide)⟩

/-! ## Facts about the option selector view -/

theorem truthy_value_iff (x : JsOpt String) :
    x.truthy = true ↔ ∃ s, x = .value s ∧ s ≠ "" := by
  cases x with
  | undefined => simp [JsOpt.truthy]
  | null => simp [JsOpt.truthy]
  | value s => simp [JsOpt.truthy, truthyString_iff]

theorem swatchImage_truthy_iff (swatch : JsOpt ProductOptionValueSwatch) :
    (swatchImage swatch).truthy = true ↔ ∃ url, HasImage swatch url := by
  rw [truthy_value_iff]
  constructor
  · rintro ⟨u, hu, hne⟩
    refine ⟨u, ?_⟩
    cases swatch with
    | undefined => simp [swatchImage, JsOpt.chain] at hu
    | null => simp [swatchImage, JsOpt.chain] at hu
    | value s =>
      cases hi : s.image with
      | undefined => simp [swatchImage, JsOpt.chain, hi] at hu
      | null => simp [swatchImage, JsOpt.chain, hi] at hu
      | value i =>
        cases hp : i.previewImage with
        | undefined => simp [swatchImage, JsOpt.chain, hi, hp] at hu
        | null => simp [swatchImage, JsOpt.chain, hi, hp] at hu
        | value p =>
          simp only [swatchImage, JsOpt.chain, hi, hp] at hu
          exact ⟨s, i, p, rfl, hi, hp, hu, hne⟩
  · rintro ⟨u, s, i, p, rfl, hi, hp, hu, hne⟩
    exact ⟨u, by simp only [swatchImage, JsOpt.chain, hi, hp, hu], hne⟩

theorem swatchImage_of_has (swatch : JsOpt ProductOptionValueSwatch) (url : String)
    (h : HasImage swatch url) : swatchImage swatch = .value url := by
  obtain ⟨s, i, p, rfl, hi, hp, hu, _⟩ := h
  simp only [swatchImage, JsOpt.chain, hi, hp, hu]

theorem swatchColor_truthy_iff (swatch : JsOpt ProductOptionValueSwatch) :
    (swatchColor swatch).truthy = true ↔ ∃ color, HasColor swatch color := by
  rw [truthy_value_iff]
  constructor
  · rintro ⟨c, hc, hne⟩
    refine ⟨c, ?_⟩
    cases swatch with
    | undefined => simp [swatchColor, JsOpt.chain] at hc
    | null => simp [swatchColor, JsOpt.chain] at hc
    | value s => exact ⟨s, rfl, by simpa [swatchColor, JsOpt.chain] using hc, hne⟩
  · rintro ⟨c, s, rfl, hc, hne⟩
    exact ⟨c, by simp only [swatchColor, JsOpt.chain, hc], hne⟩

theorem swatchColor_of_has (swatch : JsOpt ProductOptionValueSwatch) (color : String)
    (h : HasColor swatch color) : swatchColor swatch = .value color := by
  obtain ⟨s, rfl, hc, _⟩ := h
  simp only [swatchColor, JsOpt.chain, hc]

theorem truthy_eq_false_of_not {x : JsOpt String} {P : Prop} (hiff : x.truthy = true ↔ P)
    (h : ¬ P) : x.truthy = false := by
  cases hb : x.truthy with
  | false => rfl
  | true => exact absurd (hiff.1 hb) h

/-- C9, as the spec states it, fails: a swatch with both an image and a color
renders the image inside a block that also carries the color as background,
not the image alone. -/
theorem swatch_image_and_color_both_rendered :
    ProductOptionSwatch
        (.value { color := .value "#ff0000"
                  image := .value ⟨.value ⟨.value "https://cdn.shop/red.png"⟩⟩ }) "Red"
      = .element "div" none
          [("aria-label", .str "Red"),
           ("className", .str "product-option-label-swatch"),
           ("style", .style [("backgroundColor", .str "#ff0000")])]
          [.element "img" none
            [("src", .str "https://cdn.shop/red.png"), ("alt", .str "Red")] []] := by
  rfl

/-- C9, amended: for every swatch and name, `ProductOptionSwatch` renders the
plain name when the swatch has neither a non-empty image URL nor a non-empty
color; otherwise one block labelled with the name whose background is the
color when there is one and `transparent` when there is none, and whose only
child is the image when there is an image URL and `false` (nothing) when
there is none. -/
theorem swatch_rendering (swatch : JsOpt ProductOptionValueSwatch) (name : String) :
    (∀ url, HasImage swatch url →
      ∃ background,
        ProductOptionSwatch swatch name
          = .element "div" none
              [("aria-label", .str name),
               ("className", .str "product-option-label-swatch"),
               ("style", .style [("backgroundColor", .str background)])]
              [.element "img" none [("src", .str url), ("alt", .str name)] []] ∧
        (∀ color, HasColor swatch color → background = color) ∧
        ((¬ ∃ color, HasColor swatch color) → background = "transparent")) ∧
    ((¬ ∃ url, HasImage swatch url) → ∀ color, HasColor swatch color →
      ProductOptionSwatch swatch name
        = .element "div" none
            [("aria-label", .str name),
             ("className", .str "product-option-label-swatch"),
             ("style", .style [("backgroundColor", .str color)])]
            [.bool false]) ∧
    ((¬ ∃ url, HasImage swatch url) → (¬ ∃ color, HasColor swatch color) →
      ProductOptionSwatch swatch name = .text name) := by
  refine ⟨?_, ?_, ?_⟩
  · intro url hi
    have hit : (swatchImage swatch).truthy = true := (swatchImage_truthy_iff swatch).2 ⟨url, hi⟩
    have hie := swatchImage_of_has swatch url hi
    refine ⟨((swatchColor swatch).or (.value "transparent")).toJsString, ?_, ?_, ?_⟩
    · simp only [ProductOptionSwatch, hit, Bool.not_true, Bool.false_and, Bool.false_eq_true,
        if_false, if_true]
      rw [hie]
      rfl
    · intro color hc
      have hct : (swatchColor swatch).truthy = true := (swatchColor_truthy_iff swatch).2 ⟨color, hc⟩
      have hce := swatchColor_of_has swatch color hc
      rw [hce] at hct
      simp only [JsOpt.or, hce, hct, if_true, JsOpt.toJsString]
    · intro hno
      have hcf := truthy_eq_false_of_not (swatchColor_truthy_iff swatch) hno
      simp only [JsOpt.or, hcf, Bool.false_eq_true, if_false, JsOpt.toJsString]
  · intro hno color hc
    have hif := truthy_eq_false_of_not (swatchImage_truthy_iff swatch) hno
    have hct : (swatchColor swatch).truthy = true := (swatchColor_truthy_iff swatch).2 ⟨color, hc⟩
    have hce := swatchColor_of_has swatch color hc
    rw [hce] at hct
    simp only [ProductOptionSwatch, hif, hce, hct, Bool.not_true, Bool.and_false,
      Bool.false_eq_true, if_false, JsOpt.or, if_true, JsOpt.toJsString]
  · intro hno hnc
    have hif := truthy_eq_false_of_not (swatchImage_truthy_iff swatch) hno
    have hcf := truthy_eq_false_of_not (swatchColor_truthy_iff swatch) hnc
    simp only [ProductOptionSwatch, hif, hcf, Bool.not_false, Bool.and_self, if_true]

/-- Witness of C9 (amended): a swatch with only the color `#00ff00`. -/
theorem swatch_rendering_witness :
    ProductOptionSwatch (.value { color := .value "#00ff00", image := .null }) "Green"
      = .element "div" none
          [("aria-label", .str "Green"),
           ("className", .str "product-option-label-swatch"),
           ("style", .style [("backgroundColor", .str "#00ff00")])]
          [.bool false] :=
  (swatch_rendering (.value { color := .value "#00ff00", image := .null }) "Green").2.1
    (by rintro ⟨u, s, i, p, hs, hi, _⟩; cases hs; cases hi)
    "#00ff00" ⟨_, rfl, rfl, by decide⟩

/-- With a defined variant the render returns the provider element around the
form block, whose children are the option groups, the `AddToCartButton` and
the `BuyNowButton`. -/
theorem ProductForm_of_variant (productOptions : List MappedProductOptions) (v : Variant) :
    ProductForm productOptions (.value v)
      = .ok (.element "CartProvider" none
          [("onLineAdd", .handler [.consoleLog "a line is being added"]),
           ("onLineAddComplete", .handler [.consoleLog "a line has been added"])]
          [.element "div" none [("className", .str "product-form")]
            [.array (productOptions.map optionGroup),
             addToCartButton (.value v),
             buyNowButton v.id]]) := by
  rfl

/-- C6, at the failing input: with no selected variant (`null` or `undefined`)
and no option, the render returns no element; it throws a `TypeError` while
building the `BuyNowButton`, so no disabled "Sold out" control is rendered. -/
theorem ProductForm_absent_variant_faults :
    ProductForm [] .null
      = .error (.typeError "Cannot read properties of null (reading 'id')") ∧
    ProductForm [] .undefined
      = .error (.typeError "Cannot read properties of undefined (reading 'id')") := by
  constructor <;> rfl

/-- With a defined variant, the form block holds exactly one `AddToCartButton`;
it is disabled exactly when the variant is not available for sale, and its
label is "Sold out" exactly when it is disabled, "Add to cart" otherwise. -/
theorem ProductForm_addToCart_of_variant (productOptions : List MappedProductOptions)
    (v : Variant) :
    ∃ tree form button,
      ProductForm productOptions (.value v) = .ok tree ∧
      tree.children = [form] ∧
      form.children.filter (fun n => n.type? == some "AddToCartButton") = [button] ∧
      button.prop "disabled" = some (.bool (!v.availableForSale)) ∧
      button.children
        = [.text (if v.availableForSale = false then "Sold out" else "Add to cart")] := by
  refine ⟨_, _, addToCartButton (.value v), ProductForm_of_variant productOptions v, rfl,
    ?_, ?_, ?_⟩
  · simp [Node.children, Node.type?, List.filter, addToCartButton, buyNowButton]
  · simp [Node.prop, addToCartButton, truthyVariant, availableForSale]
  · cases h : v.availableForSale <;> simp [Node.children, addToCartButton, availableForSale, h]

/-- C10: for every list of options, the render completes without a fault
exactly when the selected variant is defined, since `selectedVariant.id` is
read without a check; and for every defined variant, available for sale or
not, the form block holds exactly one `BuyNowButton`, with `variantId` the
variant's id, quantity 1 and the label "Buy Now". -/
theorem ProductForm_buyNow (productOptions : List MappedProductOptions) :
    (∀ selectedVariant : JsOpt Variant,
      (∃ tree, ProductForm productOptions selectedVariant = .ok tree)
        ↔ ∃ v, selectedVariant = .value v) ∧
    (∀ v : Variant, ∃ tree form button,
      ProductForm productOptions (.value v) = .ok tree ∧
      tree.children = [form] ∧
      form.children.filter (fun n => n.type? == some "BuyNowButton") = [button] ∧
      button.prop "variantId" = some (.str v.id) ∧
      button.prop "quantity" = some (.num 1) ∧
      button.children = [.element "span" none [] [.text "Buy Now"]]) := by
  constructor
  · intro selectedVariant
    cases selectedVariant with
    | undefined =>
      simp [ProductForm, selectedVariantId, bind, Except.bind]
    | null =>
      simp [ProductForm, selectedVariantId, bind, Except.bind]
    | value v =>
      simp [ProductForm_of_variant]
  · intro v
    refine ⟨_, _, buyNowButton v.id, ProductForm_of_variant productOptions v, rfl, ?_,
      ?_, ?_, rfl⟩
    · simp [Node.children, Node.type?, List.filter, addToCartButton, buyNowButton]
    · simp [Node.prop, buyNowButton]
    · simp [Node.prop, buyNowButton]

/-- With a defined variant, the form block starts with one array holding
one item per option, in the order of `productOptions`. The item of an option
is nothing (`null`) if and only if the option has exactly one value; for any
other number of values, zero included, it is a `product-options` block keyed
and headed by the option name. -/
theorem ProductForm_option_groups (productOptions : List MappedProductOptions) (v : Variant) :
    ∃ tree form groups,
      ProductForm productOptions (.value v) = .ok tree ∧
      tree.children = [form] ∧
      form.children.head? = some (.array groups) ∧
      groups.length = productOptions.length ∧
      ∀ (i : Nat) (option : MappedProductOptions), productOptions[i]? = some option →
        ∃ group : Node, groups[i]? = some group ∧
          (group.rendersNothing = true ↔ option.optionValues.length = 1) ∧
          (option.optionValues.length ≠ 1 →
            group.type? = some "div" ∧
            group.key? = some option.name ∧
            group.prop "className" = some (.str "product-options") ∧
            group.children.head? = some (.element "h5" none [] [.text option.name])) := by
  refine ⟨_, _, productOptions.map optionGroup, ProductForm_of_variant productOptions v, rfl,
    rfl, by simp, ?_⟩
  intro i option hi
  refine ⟨optionGroup option, by simp [hi], ?_, ?_⟩
  · by_cases h : option.optionValues.length = 1
    · simp [optionGroup, h, Node.rendersNothing]
    · simp [optionGroup, h, Node.rendersNothing]
  · intro h
    simp [optionGroup, h, Node.type?, Node.key?, Node.prop, Node.children]

/-- Of a one-valued option and a two-valued one, only the second gets a
group. -/
theorem ProductForm_option_groups_example :
    ∃ tree form groups,
      ProductForm
          [⟨"Material", [⟨"Wool", "hat", "Material=Wool", true, true, true, false, .null⟩]⟩,
           ⟨"Size", [⟨"S", "hat", "Size=S", true, true, true, false, .null⟩,
                     ⟨"M", "hat", "Size=M", false, true, true, false, .null⟩]⟩]
          (.value ⟨"gid://shop/Variant/1", true⟩) = .ok tree ∧
      tree.children = [form] ∧
      form.children.head? = some (.array groups) ∧
      (∃ g0, groups[0]? = some g0 ∧ g0.rendersNothing = true) ∧
      (∃ g1, groups[1]? = some g1 ∧ g1.key? = some "Size") := by
  obtain ⟨tree, form, groups, h1, h2, h3, _, h5⟩ := ProductForm_option_groups
    [⟨"Material", [⟨"Wool", "hat", "Material=Wool", true, true, true, false, .null⟩]⟩,
     ⟨"Size", [⟨"S", "hat", "Size=S", true, true, true, false, .null⟩,
               ⟨"M", "hat", "Size=M", false, true, true, false, .null⟩]⟩]
    ⟨"gid://shop/Variant/1", true⟩
  refine ⟨tree, form, groups, h1, h2, h3, ?_, ?_⟩
  · obtain ⟨g, hg, hiff, _⟩ := h5 0
      ⟨"Material", [⟨"Wool", "hat", "Material=Wool", true, true, true, false, .null⟩]⟩ rfl
    exact ⟨g, hg, hiff.2 rfl⟩
  · obtain ⟨g, hg, _, hdiv⟩ := h5 1
      ⟨"Size", [⟨"S", "hat", "Size=S", true, true, true, false, .null⟩,
                ⟨"M", "hat", "Size=M", false, true, true, false, .null⟩]⟩ rfl
    exact ⟨g, hg, (hdiv (by decide)).2.1⟩

/-- With a defined variant, the group of an option with more than one
value holds, in its `product-options-grid` block, one array with exactly one
control per value, in the order of the values: for a value with
`isDifferentProduct` a `Link` whose `to` is `/products/` followed by the
handle, `?` and the query; for any other value a `button`, which has no `to`. -/
theorem ProductForm_option_value_controls (productOptions : List MappedProductOptions)
    (v : Variant) (i : Nat) (option : MappedProductOptions)
    (hi : productOptions[i]? = some option) (hlen : 1 < option.optionValues.length) :
    ∃ (tree form : Node) (groups : List Node) (group grid : Node) (controls : List Node),
      ProductForm productOptions (.value v) = .ok tree ∧
      tree.children = [form] ∧
      form.children.head? = some (.array groups) ∧
      groups[i]? = some group ∧
      group.children[1]? = some grid ∧
      grid.prop "className" = some (.str "product-options-grid") ∧
      grid.children = [.array controls] ∧
      controls.length = option.optionValues.length ∧
      ∀ (j : Nat) (value : OptionValue), option.optionValues[j]? = some value →
        ∃ control : Node, controls[j]? = some control ∧
          control.key? = some (option.name ++ value.name) ∧
          control.children = [ProductOptionSwatch value.swatch value.name] ∧
          (value.isDifferentProduct = true →
            control.type? = some "Link" ∧
            control.prop "to"
              = some (.str ("/products/" ++ value.handle ++ "?" ++ value.variantUriQuery))) ∧
          (value.isDifferentProduct = false →
            control.type? = some "button" ∧ control.prop "to" = none) := by
  have hne : option.optionValues.length ≠ 1 := by omega
  refine ⟨_, _, productOptions.map optionGroup, optionGroup option,
    .element "div" none [("className", .str "product-options-grid")]
      [.array (option.optionValues.map (optionValueControl option.name))],
    option.optionValues.map (optionValueControl option.name),
    ProductForm_of_variant productOptions v, rfl, rfl, by simp [hi], ?_, ?_, rfl, by simp, ?_⟩
  · simp [optionGroup, hne, Node.children]
  · simp [Node.prop]
  · intro j value hj
    refine ⟨optionValueControl option.name value, by simp [hj], ?_, ?_, ?_, ?_⟩
    · cases h : value.isDifferentProduct <;> simp [optionValueControl, h, Node.key?]
    · cases h : value.isDifferentProduct <;> simp [optionValueControl, h, Node.children]
    · intro h
      simp [optionValueControl, h, Node.type?, Node.prop]
    · intro h
      simp [optionValueControl, h, Node.type?, Node.prop]

/-- A two-valued option whose second value is another product gets a button
and a link. -/
theorem ProductForm_option_value_controls_example :
    ∃ tree form groups group grid controls,
      ProductForm
          [⟨"Size", [⟨"S", "hat", "Size=S", true, true, true, false, .null⟩,
                     ⟨"M", "hat-m", "Size=M", false, true, true, true, .null⟩]⟩]
          (.value ⟨"gid://shop/Variant/1", true⟩) = .ok tree ∧
      tree.children = [form] ∧
      form.children.head? = some (.array groups) ∧
      groups[0]? = some group ∧
      group.children[1]? = some grid ∧
      grid.children = [.array controls] ∧
      (∃ c0, controls[0]? = some c0 ∧ c0.type? = some "button") ∧
      (∃ c1, controls[1]? = some c1 ∧ c1.type? = some "Link" ∧
        c1.prop "to" = some (.str "/products/hat-m?Size=M")) := by
  obtain ⟨tree, form, groups, group, grid, controls, h1, h2, h3, h4, h5, _, h7, _, h9⟩ :=
    ProductForm_option_value_controls
      [⟨"Size", [⟨"S", "hat", "Size=S", true, true, true, false, .null⟩,
                 ⟨"M", "hat-m", "Size=M", false, true, true, true, .null⟩]⟩]
      ⟨"gid://shop/Variant/1", true⟩ 0
      ⟨"Size", [⟨"S", "hat", "Size=S", true, true, true, false, .null⟩,
                ⟨"M", "hat-m", "Size=M", false, true, true, true, .null⟩]⟩ rfl (by decide)
  refine ⟨tree, form, groups, group, grid, controls, h1, h2, h3, h4, h5, h7, ?_, ?_⟩
  · obtain ⟨c, hc, _, _, _, hb⟩ := h9 0
      ⟨"S", "hat", "Size=S", true, true, true, false, .null⟩ rfl
    exact ⟨c, hc, (hb rfl).1⟩
  · obtain ⟨c, hc, _, _, hl, _⟩ := h9 1
      ⟨"M", "hat-m", "Size=M", false, true, true, true, .null⟩ rfl
    have hto := (hl rfl).2
    exact ⟨c, hc, (hl rfl).1, hto⟩

/-- C7, at the failing input: with one two-valued option and the selected
variant `null`, the render returns no element, so no control is rendered for
either value; it throws a `TypeError` while building the `BuyNowButton`. -/
theorem ProductForm_controls_absent_variant_faults :
    ProductForm
        [⟨"Size", [⟨"S", "hat", "Size=S", true, true, true, false, .null⟩,
                   ⟨"M", "hat-m", "Size=M", false, true, true, true, .null⟩]⟩]
        .null
      = .error (.typeError "Cannot read properties of null (reading 'id')") := by
  rfl

/-- C8, at the failing input: with a two-valued option, a one-valued option
and the selected variant `undefined`, the render returns no element, so the
two-valued option produces no group either; it throws a `TypeError` while
building the `BuyNowButton`. -/
theorem ProductForm_groups_absent_variant_faults :
    ProductForm
        [⟨"Size", [⟨"S", "hat", "Size=S", true, true, true, false, .null⟩,
                   ⟨"M", "hat", "Size=M", false, true, true, false, .null⟩]⟩,
         ⟨"Material", [⟨"Wool", "hat", "Material=Wool", true, true, true, false, .null⟩]⟩]
        .undefined
      = .error (.typeError "Cannot read properties of undefined (reading 'id')") := by
  rfl

end ProductFormJsx
